import Mathlib

/-!
Shallow embedding of the shulepress-ecosystem access-control and data layer.

The embedding follows the SQL migration
(`supabase/migrations/20250708161226-….sql`: tables, RLS policies, triggers,
the `handle_new_user` provisioning trigger) and the three pages
(`Index.tsx`, `StudentDashboard.tsx`, `AdminDashboard.tsx`) plus
`CourseCard.tsx`'s `handleApply`.

Conventions:
- UUIDs are `Nat`; timestamps are `Nat` (`now()` is passed explicitly).
- `auth.uid()` is an `Option UserId` (`none` = anonymous caller).
- Postgres RLS semantics: SELECT returns the rows passing some applicable
  SELECT/ALL policy; UPDATE/DELETE silently skip rows passing no applicable
  policy (0 rows affected, no error); INSERT raises a policy error when no
  INSERT/ALL policy's check accepts the new row; unique / primary-key
  violations raise a constraint error and leave the store unchanged.
- Strings are `List Char`; JavaScript `toLowerCase` is `Char.toLower` mapped,
  and `String.prototype.includes` is the scan `jsIncludes`.
-/

namespace ShulePress

abbrev Str := List Char

abbrev UserId := Nat

/-- `auth.uid()`: the caller's identity, `none` for anonymous callers. -/
abbrev Uid := Option UserId

/-- `CREATE TYPE public.app_role AS ENUM ('student', 'admin')`. -/
inductive AppRole where
  | student
  | admin
deriving DecidableEq

/-- Row of `public.user_roles` (id PK, user_id, role; UNIQUE(user_id, role)). -/
structure UserRole where
  id : Nat
  user_id : UserId
  role : AppRole
deriving DecidableEq

/-- Row of `public.profiles` (user_id UNIQUE; name/phone/avatar nullable). -/
structure Profile where
  id : Nat
  user_id : UserId
  first_name : Option Str
  last_name : Option Str
  phone : Option Str
  avatar_url : Option Str
  created_at : Nat
  updated_at : Nat
deriving DecidableEq

/-- Row of `public.courses` (`description`, `duration`, `max_students` nullable). -/
structure Course where
  id : Nat
  name : Str
  description : Option Str
  duration : Option Str
  availability : Bool
  max_students : Option Int
  created_at : Nat
  updated_at : Nat
deriving DecidableEq

/-- The `CHECK (status IN ('pending', 'approved', 'rejected'))` domain. -/
inductive Status where
  | pending
  | approved
  | rejected
deriving DecidableEq

/-- Row of `public.course_applications` (UNIQUE(student_id, course_id)). -/
structure CourseApplication where
  id : Nat
  student_id : UserId
  course_id : Nat
  status : Status
  applied_at : Nat
  updated_at : Nat
deriving DecidableEq

/-- The relational store: `auth.users` plus the four public tables. -/
structure Store where
  users : List UserId
  profiles : List Profile
  user_roles : List UserRole
  courses : List Course
  applications : List CourseApplication
deriving DecidableEq

/-- The empty database. -/
def Store.init : Store := ⟨[], [], [], [], []⟩

/-- `public.has_role(_user_id, _role)`: EXISTS row of user_roles with that
user and role; a NULL uid matches no row. -/
def has_role (s : Store) (uid : Uid) (r : AppRole) : Bool :=
  match uid with
  | none => false
  | some u => s.user_roles.any (fun ur => ur.user_id == u && ur.role == r)

/-! ## RLS policies, one Bool predicate per (table, operation) -/

/-- profiles SELECT: "Users can view their own profile" OR
"Admins can view all profiles". -/
def profileSelectPolicy (s : Store) (uid : Uid) (p : Profile) : Bool :=
  uid == some p.user_id || has_role s uid .admin

/-- profiles UPDATE: "Users can update their own profile" (the only policy). -/
def profileUpdatePolicy (_s : Store) (uid : Uid) (p : Profile) : Bool :=
  uid == some p.user_id

/-- profiles INSERT check: "Users can insert their own profile". -/
def profileInsertPolicy (_s : Store) (uid : Uid) (p : Profile) : Bool :=
  uid == some p.user_id

/-- courses SELECT: "Anyone can view available courses" OR
"Admins can manage courses" (FOR ALL). -/
def courseSelectPolicy (s : Store) (uid : Uid) (c : Course) : Bool :=
  c.availability || has_role s uid .admin

/-- courses INSERT/UPDATE/DELETE: only "Admins can manage courses". -/
def courseWritePolicy (s : Store) (uid : Uid) : Bool :=
  has_role s uid .admin

/-- course_applications SELECT: "Students can view their own applications" OR
"Admins can manage all applications" (FOR ALL). -/
def applicationSelectPolicy (s : Store) (uid : Uid) (a : CourseApplication) : Bool :=
  uid == some a.student_id || has_role s uid .admin

/-- course_applications INSERT check: "Students can create applications" OR
the admin FOR ALL policy. -/
def applicationInsertPolicy (s : Store) (uid : Uid) (a : CourseApplication) : Bool :=
  uid == some a.student_id || has_role s uid .admin

/-- course_applications UPDATE: "Students can update their own applications" OR
the admin FOR ALL policy. -/
def applicationUpdatePolicy (s : Store) (uid : Uid) (a : CourseApplication) : Bool :=
  uid == some a.student_id || has_role s uid .admin

/-- course_applications DELETE: only "Admins can manage all applications"
(FOR ALL) applies — the migration declares no student DELETE policy. -/
def applicationDeletePolicy (s : Store) (uid : Uid) (_a : CourseApplication) : Bool :=
  has_role s uid .admin

/-! ## Store operations (RLS + constraints + triggers) -/

/-- Errors a store operation can surface (§7 taxonomy, store-raised part). -/
inductive StoreError where
  | policyDenied
  | constraintViolation
deriving DecidableEq

/-- `SELECT * FROM courses` as seen by `uid`: RLS filters to policy-passing rows. -/
def selectCourses (s : Store) (uid : Uid) : List Course :=
  s.courses.filter (courseSelectPolicy s uid)

/-- `SELECT * FROM course_applications` as seen by `uid`. -/
def selectApplications (s : Store) (uid : Uid) : List CourseApplication :=
  s.applications.filter (applicationSelectPolicy s uid)

/-- `SELECT * FROM profiles` as seen by `uid`. -/
def selectProfiles (s : Store) (uid : Uid) : List Profile :=
  s.profiles.filter (profileSelectPolicy s uid)

/-- `CourseCard.handleApply`: `INSERT INTO course_applications (student_id,
course_id)`; `id` is a generated UUID, `status` defaults to 'pending',
`applied_at`/`updated_at` default to `now()`.  The RLS insert check runs
first; then the `id` primary key and the UNIQUE(student_id, course_id)
constraint. -/
def insertApplication (s : Store) (uid : Uid) (newId : Nat) (stu : UserId)
    (crs : Nat) (t : Nat) : Except StoreError Store :=
  let row : CourseApplication := ⟨newId, stu, crs, .pending, t, t⟩
  if applicationInsertPolicy s uid row then
    if s.applications.any (fun a => a.id == newId) then
      .error .constraintViolation
    else if s.applications.any (fun a => a.student_id == stu && a.course_id == crs) then
      .error .constraintViolation
    else
      .ok { s with applications := s.applications ++ [row] }
  else
    .error .policyDenied

/-- `AdminDashboard.updateApplicationStatus`: `UPDATE course_applications SET
status = st WHERE id = appId`.  Rows passing no UPDATE/ALL policy are silently
skipped; the `update_course_applications_updated_at` trigger stamps
`updated_at := now()` on each row actually updated. -/
def updateApplicationStatus (s : Store) (uid : Uid) (appId : Nat) (st : Status)
    (t : Nat) : Store :=
  { s with applications := s.applications.map (fun a =>
      if a.id == appId && applicationUpdatePolicy s uid a then
        { a with status := st, updated_at := t }
      else a) }

/-- `StudentDashboard.cancelApplication`: `DELETE FROM course_applications
WHERE id = appId`.  Only rows passing a DELETE/ALL policy are removed; the
rest silently remain (0 rows affected, no error). -/
def deleteApplication (s : Store) (uid : Uid) (appId : Nat) : Store :=
  { s with applications := s.applications.filter (fun a =>
      !(a.id == appId && applicationDeletePolicy s uid a)) }

/-- `StudentDashboard.updateProfile`: `UPDATE profiles SET first_name, last_name,
phone WHERE user_id = target`; RLS keeps only rows owned by the caller; the
trigger stamps `updated_at` on rows actually updated. -/
def updateProfile (s : Store) (uid : Uid) (target : UserId)
    (fn ln ph : Option Str) (t : Nat) : Store :=
  { s with profiles := s.profiles.map (fun p =>
      if p.user_id == target && profileUpdatePolicy s uid p then
        { p with first_name := fn, last_name := ln, phone := ph, updated_at := t }
      else p) }

/-- `AdminDashboard.createCourse`: `INSERT INTO courses (name, description,
duration, availability, max_students)`. -/
def insertCourse (s : Store) (uid : Uid) (newId : Nat) (nm : Str)
    (ds du : Option Str) (av : Bool) (mx : Option Int) (t : Nat) :
    Except StoreError Store :=
  if courseWritePolicy s uid then
    if s.courses.any (fun c => c.id == newId) then
      .error .constraintViolation
    else
      .ok { s with courses := s.courses ++ [⟨newId, nm, ds, du, av, mx, t, t⟩] }
  else
    .error .policyDenied

/-- `AdminDashboard.updateCourse`: `UPDATE courses SET name, description,
duration, availability, max_students WHERE id = courseId`; the trigger stamps
`updated_at` on rows actually updated. -/
def updateCourse (s : Store) (uid : Uid) (courseId : Nat) (nm : Str)
    (ds du : Option Str) (av : Bool) (mx : Option Int) (t : Nat) : Store :=
  { s with courses := s.courses.map (fun c =>
      if c.id == courseId && courseWritePolicy s uid then
        { c with name := nm, description := ds, duration := du,
                 availability := av, max_students := mx, updated_at := t }
      else c) }

/-- `AdminDashboard.deleteCourse`: `DELETE FROM courses WHERE id = courseId`;
when the row is actually deleted, the `course_id` foreign key's ON DELETE
CASCADE removes the applications that reference it (referential actions are
not themselves subject to RLS). -/
def deleteCourse (s : Store) (uid : Uid) (courseId : Nat) : Store :=
  let hit := s.courses.any (fun c => c.id == courseId && courseWritePolicy s uid)
  { s with
    courses := s.courses.filter (fun c => !(c.id == courseId && courseWritePolicy s uid)),
    applications := if hit
      then s.applications.filter (fun a => !(a.course_id == courseId))
      else s.applications }

/-- `public.handle_new_user()` (SECURITY DEFINER, thus not subject to RLS):
insert one profile row seeded from the signup metadata, then one user_roles
row with role 'student'.  Each insert is subject to its table's primary-key
and UNIQUE constraints; a failure aborts the whole function. -/
def handle_new_user (s : Store) (newUser : UserId) (pid rid : Nat)
    (fn ln : Option Str) (t : Nat) : Except StoreError Store :=
  if s.profiles.any (fun p => p.id == pid) then
    .error .constraintViolation
  else if s.profiles.any (fun p => p.user_id == newUser) then
    .error .constraintViolation
  else
    let row : Profile := ⟨pid, newUser, fn, ln, none, none, t, t⟩
    let s1 := { s with profiles := s.profiles ++ [row] }
    if s1.user_roles.any (fun ur => ur.id == rid) then
      .error .constraintViolation
    else if s1.user_roles.any (fun ur => ur.user_id == newUser && ur.role == .student) then
      .error .constraintViolation
    else
      .ok { s1 with user_roles := s1.user_roles ++ [(⟨rid, newUser, .student⟩ : UserRole)] }

/-- Identity creation: `INSERT INTO auth.users` followed by the AFTER INSERT
trigger `on_auth_user_created` running `handle_new_user`.  A trigger failure
aborts the enclosing transaction, so the user row is not created either:
the whole operation either succeeds with all three rows or changes nothing. -/
def signUpUser (s : Store) (newUser : UserId) (pid rid : Nat)
    (fn ln : Option Str) (t : Nat) : Except StoreError Store :=
  if s.users.any (fun u => u == newUser) then
    .error .constraintViolation
  else
    match handle_new_user { s with users := s.users ++ [newUser] } newUser pid rid fn ln t with
    | .ok s' => .ok s'
    | .error e => .error e

/-! ## Catalog View search filter (`Index.tsx`, `filteredCourses`) -/

/-- Does `hay` start with `pre`? (helper for the substring scan). -/
def listStartsWith : Str → Str → Bool
  | _, [] => true
  | [], _ :: _ => false
  | a :: as, b :: bs => a == b && listStartsWith as bs

/-- JavaScript `hay.includes(needle)`: scan every suffix of `hay` for `needle`
as a prefix. -/
def jsIncludes : Str → Str → Bool
  | hay, needle =>
    listStartsWith hay needle ||
      match hay with
      | [] => false
      | _ :: t => jsIncludes t needle

/-- JavaScript `toLowerCase()` on the embedded strings. -/
def jsToLower (s : Str) : Str :=
  s.map Char.toLower

/-- One evaluation of the `Index.tsx` filter predicate
`course.name.toLowerCase().includes(searchTerm.toLowerCase()) ||
 course.description.toLowerCase().includes(searchTerm.toLowerCase())`.
`||` short-circuits, so the description is only touched when the name does not
match; calling `toLowerCase()` on a NULL description is a TypeError, embedded
as `none`. -/
def courseMatches (term : Str) (c : Course) : Option Bool :=
  if jsIncludes (jsToLower c.name) (jsToLower term) then
    some true
  else
    match c.description with
    | none => none
    | some d => some (jsIncludes (jsToLower d) (jsToLower term))

/-- `courses.filter(course => …)`: left-to-right, the first predicate error
(TypeError) aborts the whole evaluation. -/
def filteredCourses (term : Str) : List Course → Option (List Course)
  | [] => some []
  | c :: cs =>
    match courseMatches term c with
    | none => none
    | some b => (filteredCourses term cs).map (fun l => if b then c :: l else l)

/-! ## Workspace-initiated application-lifecycle operations

The three operations the pages can issue against `course_applications`, each
with the guard under which its page issues it: `StudentDashboard` renders the
cancel button only on a row whose displayed status is 'pending', and
`AdminDashboard` renders the approve/reject buttons (the only callers of
`updateApplicationStatus`, with 'approved' resp. 'rejected') only on a row
whose displayed status is 'pending'. -/

inductive WOp where
  | applyOp (uid : Uid) (newId : Nat) (stu : UserId) (crs : Nat) (t : Nat)
  | cancelOp (uid : Uid) (appId : Nat)
  | decideOp (uid : Uid) (appId : Nat) (st : Status) (t : Nat)

/-- One workspace-initiated step: the page-level guard, then the store call. -/
def wstep (s : Store) : WOp → Store
  | .applyOp uid newId stu crs t =>
    match insertApplication s uid newId stu crs t with
    | .ok s' => s'
    | .error _ => s
  | .cancelOp uid appId =>
    if s.applications.any (fun a => a.id == appId && a.status == .pending) then
      deleteApplication s uid appId
    else
      s
  | .decideOp uid appId st t =>
    if (st == .approved || st == .rejected)
        && s.applications.any (fun a => a.id == appId && a.status == .pending) then
      updateApplicationStatus s uid appId st t
    else
      s

/-- A sequence of workspace-initiated operations, applied left to right. -/
def runWorkspace (s : Store) (ops : List WOp) : Store :=
  ops.foldl wstep s

/-! ## Invariants and reachability -/

/-- The UNIQUE(student_id, course_id) contract: no two application rows share
the same (student, course) pair. -/
def UniquePairs (s : Store) : Prop :=
  s.applications.Pairwise
    (fun a b => ¬(a.student_id = b.student_id ∧ a.course_id = b.course_id))

/-- Application `x` is decided: a row with id `x` exists and every row with
id `x` has a status other than 'pending'. -/
def DecidedAt (x : Nat) (s : Store) : Prop :=
  (∃ a ∈ s.applications, a.id = x) ∧
    ∀ a ∈ s.applications, a.id = x → a.status ≠ Status.pending

/-- Store states reachable from the empty database through the operations the
application issues. -/
inductive Reachable : Store → Prop where
  | init : Reachable Store.init
  | signUp {s s' : Store} {u pid rid : Nat} {fn ln : Option Str} {t : Nat} :
      Reachable s → signUpUser s u pid rid fn ln t = .ok s' → Reachable s'
  | insertApp {s s' : Store} {uid : Uid} {newId stu crs t : Nat} :
      Reachable s → insertApplication s uid newId stu crs t = .ok s' → Reachable s'
  | updateAppStatus {s : Store} {uid : Uid} {appId : Nat} {st : Status} {t : Nat} :
      Reachable s → Reachable (updateApplicationStatus s uid appId st t)
  | deleteApp {s : Store} {uid : Uid} {appId : Nat} :
      Reachable s → Reachable (deleteApplication s uid appId)
  | updateProf {s : Store} {uid : Uid} {target : UserId}
      {fn ln ph : Option Str} {t : Nat} :
      Reachable s → Reachable (updateProfile s uid target fn ln ph t)
  | insertCrs {s s' : Store} {uid : Uid} {newId : Nat} {nm : Str}
      {ds du : Option Str} {av : Bool} {mx : Option Int} {t : Nat} :
      Reachable s → insertCourse s uid newId nm ds du av mx t = .ok s' → Reachable s'
  | updateCrs {s : Store} {uid : Uid} {courseId : Nat} {nm : Str}
      {ds du : Option Str} {av : Bool} {mx : Option Int} {t : Nat} :
      Reachable s → Reachable (updateCourse s uid courseId nm ds du av mx t)
  | deleteCrs {s : Store} {uid : Uid} {courseId : Nat} :
      Reachable s → Reachable (deleteCourse s uid courseId)

/-- Spec-side catalog predicate, written from the spec's words: the course's
name or description contains the search term as a case-insensitive substring. -/
def SpecMatches (term : Str) (c : Course) : Prop :=
  jsToLower term <:+: jsToLower c.name ∨
    ∃ d, c.description = some d ∧ jsToLower term <:+: jsToLower d

/-! ## Concrete stores used as counterexample / witness inputs -/

/-- Two student identities; student 1 owns one pending application (id 1)
for course 1. -/
def sPending : Store :=
  { users := [1, 2]
  , profiles := [⟨1, 1, none, none, none, none, 0, 0⟩, ⟨2, 2, none, none, none, none, 0, 0⟩]
  , user_roles := [⟨1, 1, .student⟩, ⟨2, 2, .student⟩]
  , courses := [⟨1, ['m'], some ['d'], none, true, some 50, 0, 0⟩]
  , applications := [⟨1, 1, 1, .pending, 0, 0⟩] }

/-- User 1 owns a profile; user 2 holds the admin role. -/
def sAdminOther : Store :=
  { users := [1, 2]
  , profiles := [⟨1, 1, some ['a'], none, none, none, 0, 0⟩]
  , user_roles := [⟨1, 1, .student⟩, ⟨2, 2, .admin⟩, ⟨3, 2, .student⟩]
  , courses := []
  , applications := [] }

/-- One available and one unavailable course; user 9 is an admin. -/
def sCourses : Store :=
  { users := [9]
  , profiles := []
  , user_roles := [⟨1, 9, .admin⟩]
  , courses := [⟨1, ['a'], none, none, true, some 50, 0, 0⟩,
                ⟨2, ['b'], some ['x'], none, false, some 50, 0, 0⟩]
  , applications := [] }

/-- Applications of two different students; user 9 is an admin. -/
def sApps : Store :=
  { users := [1, 2, 9]
  , profiles := []
  , user_roles := [⟨1, 9, .admin⟩, ⟨2, 1, .student⟩, ⟨3, 2, .student⟩]
  , courses := [⟨1, ['m'], none, none, true, some 50, 0, 0⟩]
  , applications := [⟨1, 1, 1, .pending, 0, 0⟩, ⟨2, 2, 1, .approved, 0, 0⟩] }

/-- The store produced by provisioning identity 7 into the empty database. -/
def sProvisioned : Store :=
  { users := [7]
  , profiles := [⟨1, 7, none, none, none, none, 0, 0⟩]
  , user_roles := [⟨1, 7, .student⟩]
  , courses := []
  , applications := [] }

/-- A course whose description is NULL, and one with a description. -/
def cNoDesc : Course := ⟨1, ['a', 'b'], none, none, true, some 50, 0, 0⟩

/-- A course with a present description. -/
def cWithDesc : Course := ⟨2, ['c'], some ['a', 'b'], none, true, some 50, 0, 0⟩

/-! ## Helper lemmas -/

theorem listStartsWith_iff (hay pre : Str) :
    listStartsWith hay pre = true ↔ pre <+: hay := by
  induction hay generalizing pre with
  | nil =>
    cases pre with
    | nil => simp [listStartsWith]
    | cons b bs => simp [listStartsWith]
  | cons a as ih =>
    cases pre with
    | nil => simp [listStartsWith]
    | cons b bs =>
      simp only [listStartsWith, Bool.and_eq_true, beq_iff_eq, ih,
        List.cons_prefix_cons]
      exact ⟨fun h => ⟨h.1.symm, h.2⟩, fun h => ⟨h.1.symm, h.2⟩⟩

theorem jsIncludes_iff (hay needle : Str) :
    jsIncludes hay needle = true ↔ needle <:+: hay := by
  induction hay with
  | nil =>
    simp [jsIncludes, listStartsWith_iff]
  | cons a t ih =>
    rw [List.infix_cons_iff]
    simp [jsIncludes, listStartsWith_iff, ih, Or.comm]

theorem jsToLower_length (x : Str) : (jsToLower x).length = x.length := by
  simp [jsToLower]

/-- A strictly longer list is never an infix, hence never found by the scan. -/
theorem jsIncludes_false_of_longer {hay needle : Str}
    (h : hay.length < needle.length) : jsIncludes hay needle = false := by
  rw [Bool.eq_false_iff]
  intro hc
  exact absurd (List.IsInfix.length_le ((jsIncludes_iff hay needle).mp hc))
    (Nat.not_le_of_lt h)

theorem insertApplication_ok (s : Store) (uid : Uid) (newId stu crs t : Nat)
    (s' : Store) (h : insertApplication s uid newId stu crs t = .ok s') :
    applicationInsertPolicy s uid ⟨newId, stu, crs, .pending, t, t⟩ = true ∧
    s.applications.any (fun a => a.id == newId) = false ∧
    s.applications.any (fun a => a.student_id == stu && a.course_id == crs) = false ∧
    s' = { s with applications :=
      s.applications ++ [⟨newId, stu, crs, .pending, t, t⟩] } := by
  simp only [insertApplication] at h
  by_cases hpol : applicationInsertPolicy s uid ⟨newId, stu, crs, .pending, t, t⟩ = true
  · by_cases hid : s.applications.any (fun a => a.id == newId) = true
    · simp [hpol, hid] at h
    · by_cases hdup : s.applications.any
        (fun a => a.student_id == stu && a.course_id == crs) = true
      · simp [hpol, hid, hdup] at h
      · simp only [hpol, hid, hdup, if_true, if_false, Bool.false_eq_true,
          Except.ok.injEq] at h
        exact ⟨hpol, by simpa using hid, by simpa using hdup, h.symm⟩
  · simp [hpol] at h

theorem insertApplication_dup (s : Store) (uid : Uid) (newId stu crs t : Nat)
    (hpol : applicationInsertPolicy s uid ⟨newId, stu, crs, .pending, t, t⟩ = true)
    (hdup : s.applications.any
      (fun a => a.student_id == stu && a.course_id == crs) = true) :
    insertApplication s uid newId stu crs t = .error .constraintViolation := by
  unfold insertApplication
  by_cases hid : s.applications.any (fun a => a.id == newId) = true <;>
    simp [hpol, hid, hdup]

theorem updateApplicationStatus_applications (s : Store) (uid : Uid)
    (appId : Nat) (st : Status) (t : Nat) :
    (updateApplicationStatus s uid appId st t).applications =
      s.applications.map (fun a =>
        if a.id == appId && applicationUpdatePolicy s uid a then
          { a with status := st, updated_at := t }
        else a) := rfl

theorem deleteApplication_applications (s : Store) (uid : Uid) (appId : Nat) :
    (deleteApplication s uid appId).applications =
      s.applications.filter (fun a =>
        !(a.id == appId && applicationDeletePolicy s uid a)) := rfl

theorem updateProfile_applications (s : Store) (uid : Uid) (target : UserId)
    (fn ln ph : Option Str) (t : Nat) :
    (updateProfile s uid target fn ln ph t).applications = s.applications := rfl

theorem updateCourse_applications (s : Store) (uid : Uid) (courseId : Nat)
    (nm : Str) (ds du : Option Str) (av : Bool) (mx : Option Int) (t : Nat) :
    (updateCourse s uid courseId nm ds du av mx t).applications =
      s.applications := rfl

theorem handle_new_user_ok (s : Store) (newUser : UserId) (pid rid : Nat)
    (fn ln : Option Str) (t : Nat) (s' : Store)
    (h : handle_new_user s newUser pid rid fn ln t = .ok s') :
    s.profiles.any (fun p => p.user_id == newUser) = false ∧
    s.user_roles.any (fun ur => ur.user_id == newUser && ur.role == .student) = false ∧
    s' = { s with
      profiles := s.profiles ++ [⟨pid, newUser, fn, ln, none, none, t, t⟩],
      user_roles := s.user_roles ++ [⟨rid, newUser, .student⟩] } := by
  simp only [handle_new_user] at h
  by_cases h1 : s.profiles.any (fun p => p.id == pid) = true
  · simp [h1] at h
  · by_cases h2 : s.profiles.any (fun p => p.user_id == newUser) = true
    · simp [h1, h2] at h
    · by_cases h3 : s.user_roles.any (fun ur => ur.id == rid) = true
      · simp [h1, h2, h3] at h
      · by_cases h4 : s.user_roles.any
          (fun ur => ur.user_id == newUser && ur.role == .student) = true
        · simp [h1, h2, h3, h4] at h
        · simp only [h1, h2, h3, h4, if_true, if_false, Bool.false_eq_true,
            Except.ok.injEq] at h
          exact ⟨by simpa using h2, by simpa using h4, h.symm⟩

theorem insertCourse_ok_applications (s : Store) (uid : Uid) (newId : Nat)
    (nm : Str) (ds du : Option Str) (av : Bool) (mx : Option Int) (t : Nat)
    (s' : Store) (h : insertCourse s uid newId nm ds du av mx t = .ok s') :
    s'.applications = s.applications := by
  simp only [insertCourse] at h
  by_cases h1 : courseWritePolicy s uid = true
  · by_cases h2 : s.courses.any (fun c => c.id == newId) = true
    · simp [h1, h2] at h
    · simp only [h1, h2, if_true, if_false, Bool.false_eq_true,
        Except.ok.injEq] at h
      subst h; rfl
  · simp [h1] at h

theorem signUpUser_ok (s : Store) (newUser : UserId) (pid rid : Nat)
    (fn ln : Option Str) (t : Nat) (s' : Store)
    (h : signUpUser s newUser pid rid fn ln t = .ok s') :
    s.profiles.any (fun p => p.user_id == newUser) = false ∧
    s.user_roles.any (fun ur => ur.user_id == newUser && ur.role == .student) = false ∧
    s' = { s with
      users := s.users ++ [newUser],
      profiles := s.profiles ++ [⟨pid, newUser, fn, ln, none, none, t, t⟩],
      user_roles := s.user_roles ++ [⟨rid, newUser, .student⟩] } := by
  unfold signUpUser at h
  split_ifs at h with h1
  cases hh : handle_new_user { s with users := s.users ++ [newUser] } newUser pid rid fn ln t with
  | error e => rw [hh] at h; cases h
  | ok s2 =>
    rw [hh] at h
    simp only [Except.ok.injEq] at h
    subst h
    simpa using handle_new_user_ok _ _ _ _ _ _ _ _ hh

/-! ## Preservation of the UNIQUE(student_id, course_id) contract -/

theorem uniquePairs_init : UniquePairs Store.init := by
  simp [UniquePairs, Store.init]

theorem uniquePairs_insertApp {s s' : Store} {uid : Uid} {newId stu crs t : Nat}
    (h : insertApplication s uid newId stu crs t = .ok s')
    (hu : UniquePairs s) : UniquePairs s' := by
  obtain ⟨-, -, hdup, rfl⟩ := insertApplication_ok _ _ _ _ _ _ _ h
  unfold UniquePairs at hu ⊢
  rw [List.pairwise_append]
  refine ⟨hu, by simp, ?_⟩
  intro a ha b hb
  simp only [List.mem_singleton] at hb
  subst hb
  rintro ⟨hs, hc⟩
  have := List.any_eq_false.mp hdup a ha
  simp [hs, hc] at this

theorem uniquePairs_updateAppStatus {s : Store} {uid : Uid} {appId : Nat}
    {st : Status} {t : Nat} (hu : UniquePairs s) :
    UniquePairs (updateApplicationStatus s uid appId st t) := by
  unfold UniquePairs at hu ⊢
  rw [updateApplicationStatus_applications, List.pairwise_map]
  have hs : ∀ a : CourseApplication,
      ((if a.id == appId && applicationUpdatePolicy s uid a then
        { a with status := st, updated_at := t } else a) : CourseApplication).student_id
        = a.student_id := by
    intro a; split <;> rfl
  have hc : ∀ a : CourseApplication,
      ((if a.id == appId && applicationUpdatePolicy s uid a then
        { a with status := st, updated_at := t } else a) : CourseApplication).course_id
        = a.course_id := by
    intro a; split <;> rfl
  refine List.Pairwise.imp ?_ hu
  intro a b hab
  rintro ⟨h1, h2⟩
  exact hab ⟨by rwa [hs a, hs b] at h1, by rwa [hc a, hc b] at h2⟩

theorem uniquePairs_deleteApp {s : Store} {uid : Uid} {appId : Nat}
    (hu : UniquePairs s) : UniquePairs (deleteApplication s uid appId) :=
  List.Pairwise.sublist (List.filter_sublist _) hu

theorem uniquePairs_deleteCrs {s : Store} {uid : Uid} {courseId : Nat}
    (hu : UniquePairs s) : UniquePairs (deleteCourse s uid courseId) := by
  unfold UniquePairs at hu ⊢
  unfold deleteCourse
  dsimp only
  split
  · exact List.Pairwise.sublist (List.filter_sublist _) hu
  · exact hu

/-- Every reachable store state satisfies the uniqueness contract. -/
theorem reachable_uniquePairs {s : Store} (h : Reachable s) : UniquePairs s := by
  induction h with
  | init => exact uniquePairs_init
  | signUp _ hok ih =>
    obtain ⟨-, -, rfl⟩ := signUpUser_ok _ _ _ _ _ _ _ _ hok
    exact ih
  | insertApp _ hok ih => exact uniquePairs_insertApp hok ih
  | updateAppStatus _ ih => exact uniquePairs_updateAppStatus ih
  | deleteApp _ ih => exact uniquePairs_deleteApp ih
  | updateProf _ ih => exact ih
  | insertCrs _ hok ih =>
    unfold UniquePairs at ih ⊢
    rw [insertCourse_ok_applications _ _ _ _ _ _ _ _ _ _ hok]
    exact ih
  | updateCrs _ ih => exact ih
  | deleteCrs _ ih => exact uniquePairs_deleteCrs ih

/-! ## Stability of decided applications under workspace operations -/

theorem decidedAt_wstep {x : Nat} {s : Store} (op : WOp) (hd : DecidedAt x s) :
    DecidedAt x (wstep s op) := by
  obtain ⟨⟨w, hw, hwid⟩, hall⟩ := hd
  cases op with
  | applyOp uid newId stu crs t =>
    dsimp only [wstep]
    cases hok : insertApplication s uid newId stu crs t with
    | error e => exact ⟨⟨w, hw, hwid⟩, hall⟩
    | ok s' =>
      obtain ⟨-, hid, -, rfl⟩ := insertApplication_ok _ _ _ _ _ _ _ hok
      refine ⟨⟨w, List.mem_append_left _ hw, hwid⟩, ?_⟩
      intro a ha hax
      rcases List.mem_append.mp ha with hmem | hmem
      · exact hall a hmem hax
      · exfalso
        simp only [List.mem_singleton] at hmem
        subst hmem
        have hnx : w.id = newId := hwid.trans hax.symm
        have := List.any_eq_false.mp hid w hw
        simp [hnx] at this
  | cancelOp uid appId =>
    dsimp only [wstep]
    split
    · rename_i hguard
      by_cases hx : appId = x
      · exfalso
        subst hx
        obtain ⟨a, ha, hcond⟩ := List.any_eq_true.mp hguard
        simp only [Bool.and_eq_true, beq_iff_eq] at hcond
        exact hall a ha hcond.1 (by simp [hcond.2])
      · refine ⟨⟨w, ?_, hwid⟩, ?_⟩
        · rw [deleteApplication_applications]
          refine List.mem_filter.mpr ⟨hw, ?_⟩
          simp only [hwid, Bool.not_eq_true', Bool.and_eq_false_iff, beq_eq_false_iff_ne,
            ne_eq]
          exact Or.inl fun h => hx h.symm
        · intro a ha hax
          rw [deleteApplication_applications] at ha
          exact hall a (List.mem_filter.mp ha).1 hax
    · exact ⟨⟨w, hw, hwid⟩, hall⟩
  | decideOp uid appId st t =>
    dsimp only [wstep]
    split
    · rename_i hguard
      rw [Bool.and_eq_true] at hguard
      have hst : st ≠ Status.pending := by
        cases st
        · exact absurd hguard.1 (by decide)
        · decide
        · decide
      constructor
      · rw [updateApplicationStatus_applications]
        refine ⟨_, List.mem_map_of_mem _ hw, ?_⟩
        split <;> simpa using hwid
      · intro a ha hax
        rw [updateApplicationStatus_applications] at ha
        obtain ⟨b, hb, rfl⟩ := List.mem_map.mp ha
        by_cases hcond : (b.id == appId && applicationUpdatePolicy s uid b) = true
        · simp only [hcond, if_true]
          exact hst
        · simp only [hcond, Bool.false_eq_true, if_false] at hax ⊢
          exact hall b hb hax
    · exact ⟨⟨w, hw, hwid⟩, hall⟩

theorem decidedAt_runWorkspace {x : Nat} {s : Store} (ops : List WOp)
    (hd : DecidedAt x s) : DecidedAt x (runWorkspace s ops) := by
  induction ops generalizing s with
  | nil => exact hd
  | cons op rest ih => exact ih (decidedAt_wstep op hd)

/-! ## Catalog filter lemmas -/

theorem filteredCourses_eq_filter (term : Str) (l : List Course)
    (h : ∀ c ∈ l, c.description.isSome) :
    filteredCourses term l = some (l.filter (fun c =>
      jsIncludes (jsToLower c.name) (jsToLower term) ||
        jsIncludes (jsToLower (c.description.getD [])) (jsToLower term))) := by
  induction l with
  | nil => rfl
  | cons c cs ih =>
    have hc := h c (List.mem_cons_self _ _)
    obtain ⟨d, hd⟩ := Option.isSome_iff_exists.mp hc
    have ihs := ih (fun x hx => h x (List.mem_cons_of_mem _ hx))
    by_cases hn : jsIncludes (jsToLower c.name) (jsToLower term) = true
    · simp [filteredCourses, courseMatches, hd, hn, ihs, List.filter_cons]
    · simp only [Bool.not_eq_true] at hn
      by_cases hdm : jsIncludes (jsToLower d) (jsToLower term) = true
      · simp [filteredCourses, courseMatches, hd, hn, hdm, ihs, List.filter_cons]
      · simp only [Bool.not_eq_true] at hdm
        simp [filteredCourses, courseMatches, hd, hn, hdm, ihs, List.filter_cons]

theorem filteredCourses_isSome (term : Str) (l : List Course)
    (h : ∀ c ∈ l, c.description.isSome) :
    (filteredCourses term l).isSome := by
  rw [filteredCourses_eq_filter term l h]
  rfl

theorem filteredCourses_none_of_mem_none {l : List Course} {c : Course}
    (hc : c ∈ l) (hdesc : c.description = none)
    {term : Str} (hname : jsIncludes (jsToLower c.name) (jsToLower term) = false) :
    filteredCourses term l = none := by
  induction l with
  | nil => cases hc
  | cons a as ih =>
    rcases List.mem_cons.mp hc with rfl | hmem
    · simp [filteredCourses, courseMatches, hname, hdesc]
    · cases hm : courseMatches term a with
      | none => simp [filteredCourses, hm]
      | some b => simp [filteredCourses, hm, ih hmem]

/-- A term one character longer than the course name defeats the name branch. -/
theorem jsIncludes_name_extended (c : Course) (x : Char) :
    jsIncludes (jsToLower c.name) (jsToLower (c.name ++ [x])) = false := by
  apply jsIncludes_false_of_longer
  simp [jsToLower_length]

theorem matchBool_iff_specMatches (term : Str) (c : Course)
    (h : c.description.isSome) :
    (jsIncludes (jsToLower c.name) (jsToLower term) ||
      jsIncludes (jsToLower (c.description.getD [])) (jsToLower term)) = true ↔
    SpecMatches term c := by
  obtain ⟨d, hd⟩ := Option.isSome_iff_exists.mp h
  simp [hd, SpecMatches, jsIncludes_iff]

theorem updateProfile_profiles (s : Store) (uid : Uid) (target : UserId)
    (fn ln ph : Option Str) (t : Nat) :
    (updateProfile s uid target fn ln ph t).profiles =
      s.profiles.map (fun p =>
        if p.user_id == target && profileUpdatePolicy s uid p then
          { p with first_name := fn, last_name := ln, phone := ph, updated_at := t }
        else p) := rfl

theorem updateCourse_courses (s : Store) (uid : Uid) (courseId : Nat)
    (nm : Str) (ds du : Option Str) (av : Bool) (mx : Option Int) (t : Nat) :
    (updateCourse s uid courseId nm ds du av mx t).courses =
      s.courses.map (fun c =>
        if c.id == courseId && courseWritePolicy s uid then
          { c with name := nm, description := ds, duration := du,
                   availability := av, max_students := mx, updated_at := t }
        else c) := rfl

theorem lt_length_update_apps (s : Store) (uid : Uid) (appId : Nat)
    (st : Status) (t : Nat) {i : Nat} (h : i < s.applications.length) :
    i < (updateApplicationStatus s uid appId st t).applications.length := by
  rw [updateApplicationStatus_applications, List.length_map]; exact h

theorem lt_length_update_profiles (s : Store) (uid : Uid) (target : UserId)
    (fn ln ph : Option Str) (t : Nat) {i : Nat} (h : i < s.profiles.length) :
    i < (updateProfile s uid target fn ln ph t).profiles.length := by
  rw [updateProfile_profiles, List.length_map]; exact h

theorem lt_length_update_courses (s : Store) (uid : Uid) (courseId : Nat)
    (nm : Str) (ds du : Option Str) (av : Bool) (mx : Option Int) (t : Nat)
    {i : Nat} (h : i < s.courses.length) :
    i < (updateCourse s uid courseId nm ds du av mx t).courses.length := by
  rw [updateCourse_courses, List.length_map]; exact h

/-! ## Claims -/

/-- C1: the spec claims a student can delete ("cancel") their own pending
CourseApplication.  The migration declares no DELETE policy on
course_applications that matches the owning student — only the admin FOR ALL
policy applies to DELETE — so the owner's delete request affects zero rows and
the pending row remains (and a different non-admin student's delete request is
likewise a no-op, the half of the claim that does hold).  This theorem
evaluates the code at the failing input: student 1 deleting their own pending
application 1 leaves the store unchanged, as does student 2's attempt. -/
theorem C1_owner_cancel_leaves_row :
    deleteApplication sPending (some 1) 1 = sPending ∧
    deleteApplication sPending (some 2) 1 = sPending ∧
    (∃ a ∈ sPending.applications, a.id = 1 ∧ a.student_id = 1 ∧
      a.status = Status.pending) ∧
    has_role sPending (some 1) .admin = false := by
  refine ⟨by decide, by decide, ?_, by decide⟩
  exact ⟨⟨1, 1, 1, .pending, 0, 0⟩, by decide, rfl, rfl, rfl⟩

/-- C2 counterexample: user 2 holds the admin role, user 1 owns the only
profile, yet user 2's update of user 1's profile is a no-op — the claim that
an admin's update succeeds is false on the code (profiles has only an
owner-scoped UPDATE policy). -/
theorem C2_admin_update_denied :
    has_role sAdminOther (some 2) .admin = true ∧
    (∃ p ∈ sAdminOther.profiles, p.user_id = 1 ∧ p.first_name = some ['a']) ∧
    updateProfile sAdminOther (some 2) 1 (some ['z']) none none 5 = sAdminOther := by
  refine ⟨by decide, ?_, by decide⟩
  exact ⟨⟨1, 1, some ['a'], none, none, none, 0, 0⟩, by decide, rfl, rfl⟩

/-- C2 (amended): a Profile update applies exactly to the rows owned by the
caller — the row addressed by `target` is mutated when the caller is its
owning identity, and every row not owned by the caller (admin or not) is left
completely unchanged. -/
theorem C2_profile_update_owner_only (s : Store) (uid : Uid) (target : UserId)
    (fn ln ph : Option Str) (t : Nat) (i : Nat) (h : i < s.profiles.length) :
    ((s.profiles.get ⟨i, h⟩).user_id = target ∧
        uid = some (s.profiles.get ⟨i, h⟩).user_id →
      (updateProfile s uid target fn ln ph t).profiles.get
          ⟨i, by rw [updateProfile_profiles, List.length_map]; exact h⟩ =
        { s.profiles.get ⟨i, h⟩ with
            first_name := fn, last_name := ln, phone := ph, updated_at := t }) ∧
    (¬((s.profiles.get ⟨i, h⟩).user_id = target ∧
        uid = some (s.profiles.get ⟨i, h⟩).user_id) →
      (updateProfile s uid target fn ln ph t).profiles.get
          ⟨i, by rw [updateProfile_profiles, List.length_map]; exact h⟩ =
        s.profiles.get ⟨i, h⟩) := by
  constructor
  · rintro ⟨h1, h2⟩
    simp only [List.get_eq_getElem] at h1 h2 ⊢
    have hb : (s.profiles[i].user_id == target &&
        profileUpdatePolicy s uid s.profiles[i]) = true := by
      simp [profileUpdatePolicy, h1, h2]
    simp only [updateProfile_profiles, List.getElem_map, hb, if_true]
  · intro hn
    simp only [updateProfile_profiles, List.get_eq_getElem, List.getElem_map]
    rw [if_neg]
    simp only [profileUpdatePolicy, Bool.and_eq_true, beq_iff_eq]
    exact fun hc => hn ⟨hc.1, hc.2⟩

/-- C2 witness: the owning caller's update goes through on a concrete store. -/
theorem C2_profile_update_owner_only_witness :
    (updateProfile sAdminOther (some 1) 1 (some ['z']) none none 5).profiles.get
        ⟨0, by decide⟩ =
      { sAdminOther.profiles.get ⟨0, by decide⟩ with
          first_name := some ['z'], last_name := none, phone := none,
          updated_at := 5 } :=
  (C2_profile_update_owner_only sAdminOther (some 1) 1 (some ['z']) none none 5 0
    (by decide)).1 ⟨rfl, rfl⟩

/-- C3: in every reachable store state the (student, course) pair of a
CourseApplication is unique, and a second insert attempt by the owning student
for an existing (student, course) pair fails with ConstraintViolation (the
store is unchanged: the failing insert returns no new state). -/
theorem C3_application_pair_unique :
    (∀ s : Store, Reachable s → UniquePairs s) ∧
    (∀ (s : Store) (stu crs newId t : Nat),
      (∃ a ∈ s.applications, a.student_id = stu ∧ a.course_id = crs) →
      insertApplication s (some stu) newId stu crs t =
        .error .constraintViolation) := by
  constructor
  · exact fun _ h => reachable_uniquePairs h
  · rintro s stu crs newId t ⟨a, ha, h1, h2⟩
    apply insertApplication_dup
    · simp [applicationInsertPolicy]
    · exact List.any_eq_true.mpr ⟨a, ha, by simp [h1, h2]⟩

/-- C3 witness: the empty store is reachable and unique; a duplicate insert on
a concrete store errors. -/
theorem C3_application_pair_unique_witness :
    UniquePairs Store.init ∧
    insertApplication sPending (some 1) 2 1 1 7 =
      .error .constraintViolation :=
  ⟨C3_application_pair_unique.1 Store.init Reachable.init,
   C3_application_pair_unique.2 sPending 1 1 2 7
     ⟨⟨1, 1, 1, .pending, 0, 0⟩, by decide, rfl, rfl⟩⟩

/-- C4: a caller without the admin role (including the anonymous caller) reads
exactly the available courses; a caller with the admin role reads all rows. -/
theorem C4_course_read_visibility (s : Store) (uid : Uid) :
    (has_role s uid .admin = false →
      ∀ c : Course, c ∈ selectCourses s uid ↔
        c ∈ s.courses ∧ c.availability = true) ∧
    (has_role s uid .admin = true → selectCourses s uid = s.courses) := by
  constructor
  · intro hna c
    simp [selectCourses, courseSelectPolicy, List.mem_filter, hna]
  · intro ha
    simp [selectCourses, courseSelectPolicy, ha]

/-- C4 witness: anonymous caller sees only the available course of a concrete
store; the admin sees both. -/
theorem C4_course_read_visibility_witness :
    ((⟨2, ['b'], some ['x'], none, false, some 50, 0, 0⟩ : Course) ∈
        selectCourses sCourses none ↔
      (⟨2, ['b'], some ['x'], none, false, some 50, 0, 0⟩ : Course) ∈
        sCourses.courses ∧ false = true) ∧
    selectCourses sCourses (some 9) = sCourses.courses :=
  ⟨(C4_course_read_visibility sCourses none).1 (by decide) _,
   (C4_course_read_visibility sCourses (some 9)).2 (by decide)⟩

/-- C5: a caller without the admin role reads exactly their own
CourseApplication rows (the anonymous caller none); an admin reads all. -/
theorem C5_application_read_visibility (s : Store) (uid : Uid) :
    (has_role s uid .admin = false →
      ∀ a : CourseApplication, a ∈ selectApplications s uid ↔
        a ∈ s.applications ∧ uid = some a.student_id) ∧
    (has_role s uid .admin = true →
      selectApplications s uid = s.applications) := by
  constructor
  · intro hna a
    simp [selectApplications, applicationSelectPolicy, List.mem_filter, hna]
  · intro ha
    simp [selectApplications, applicationSelectPolicy, ha]

/-- C5 witness: student 1 sees their own row and not student 2's; the admin
sees all rows. -/
theorem C5_application_read_visibility_witness :
    ((⟨2, 2, 1, .approved, 0, 0⟩ : CourseApplication) ∈
        selectApplications sApps (some 1) ↔
      (⟨2, 2, 1, .approved, 0, 0⟩ : CourseApplication) ∈ sApps.applications ∧
        (some 1 : Uid) = some 2) ∧
    selectApplications sApps (some 9) = sApps.applications :=
  ⟨(C5_application_read_visibility sApps (some 1)).1 (by decide) _,
   (C5_application_read_visibility sApps (some 9)).2 (by decide)⟩

/-- C6: whenever identity creation succeeds, the new identity exists with
exactly one Profile row and exactly one student RoleAssignment row; and on a
fresh identity (no conflicting rows) provisioning does succeed.  Atomicity is
structural: `signUpUser` either returns the fully provisioned store or an
error carrying no state, so no identity can exist without both rows. -/
theorem C6_provisioning (s : Store) (newUser : UserId) (pid rid : Nat)
    (fn ln : Option Str) (t : Nat) :
    (∀ s', signUpUser s newUser pid rid fn ln t = .ok s' →
      newUser ∈ s'.users ∧
      s'.profiles.countP (fun p => p.user_id == newUser) = 1 ∧
      s'.user_roles.countP
        (fun ur => ur.user_id == newUser && ur.role == .student) = 1) ∧
    (s.users.any (fun u => u == newUser) = false →
      s.profiles.any (fun p => p.id == pid) = false →
      s.profiles.any (fun p => p.user_id == newUser) = false →
      s.user_roles.any (fun ur => ur.id == rid) = false →
      s.user_roles.any
        (fun ur => ur.user_id == newUser && ur.role == .student) = false →
      ∃ s', signUpUser s newUser pid rid fn ln t = .ok s') := by
  constructor
  · intro s' hok
    obtain ⟨hp, hr, rfl⟩ := signUpUser_ok _ _ _ _ _ _ _ _ hok
    refine ⟨by simp, ?_, ?_⟩
    · rw [List.countP_append]
      have h0 : s.profiles.countP (fun p => p.user_id == newUser) = 0 := by
        rw [List.countP_eq_zero]
        intro p hp'
        simpa using List.any_eq_false.mp hp p hp'
      simp [h0, List.countP_cons]
    · rw [List.countP_append]
      have h0 : s.user_roles.countP
          (fun ur => ur.user_id == newUser && ur.role == .student) = 0 := by
        rw [List.countP_eq_zero]
        intro ur hr'
        simpa using List.any_eq_false.mp hr ur hr'
      simp [h0, List.countP_cons]
  · intro hu h1 h2 h3 h4
    have hok : signUpUser s newUser pid rid fn ln t = .ok
        { s with users := s.users ++ [newUser],
                 profiles := s.profiles ++ [⟨pid, newUser, fn, ln, none, none, t, t⟩],
                 user_roles := s.user_roles ++ [⟨rid, newUser, .student⟩] } := by
      simp only [signUpUser, handle_new_user, hu, Bool.false_eq_true, if_false]
      simp [h1, h2, h3, h4]
    exact ⟨_, hok⟩

/-- C6 witness: provisioning identity 7 into the empty store yields exactly
one profile and one student role for it. -/
theorem C6_provisioning_witness :
    (7 ∈ sProvisioned.users ∧
      sProvisioned.profiles.countP (fun p => p.user_id == 7) = 1 ∧
      sProvisioned.user_roles.countP
        (fun ur => ur.user_id == 7 && ur.role == .student) = 1) ∧
    (∃ s', signUpUser Store.init 7 1 1 none none 0 = .ok s') :=
  ⟨(C6_provisioning Store.init 7 1 1 none none 0).1 sProvisioned rfl,
   (C6_provisioning Store.init 7 1 1 none none 0).2 rfl rfl rfl rfl rfl⟩

/-- C7: each of the three UPDATE paths stamps `updated_at := now()` (via the
BEFORE UPDATE triggers) on exactly the rows it actually updates, and leaves
every other row byte-for-byte unchanged. -/
theorem C7_updated_at_refreshed (s : Store) (uid : Uid) (t : Nat) :
    (∀ (appId : Nat) (st : Status) (i : Nat) (h : i < s.applications.length),
      ((s.applications.get ⟨i, h⟩).id = appId ∧
          applicationUpdatePolicy s uid (s.applications.get ⟨i, h⟩) = true →
        ((updateApplicationStatus s uid appId st t).applications.get
          ⟨i, lt_length_update_apps s uid appId st t h⟩).updated_at = t) ∧
      (¬((s.applications.get ⟨i, h⟩).id = appId ∧
          applicationUpdatePolicy s uid (s.applications.get ⟨i, h⟩) = true) →
        (updateApplicationStatus s uid appId st t).applications.get
          ⟨i, lt_length_update_apps s uid appId st t h⟩ =
          s.applications.get ⟨i, h⟩)) ∧
    (∀ (target : UserId) (fn ln ph : Option Str) (i : Nat)
        (h : i < s.profiles.length),
      ((s.profiles.get ⟨i, h⟩).user_id = target ∧
          profileUpdatePolicy s uid (s.profiles.get ⟨i, h⟩) = true →
        ((updateProfile s uid target fn ln ph t).profiles.get
          ⟨i, lt_length_update_profiles s uid target fn ln ph t h⟩).updated_at
          = t) ∧
      (¬((s.profiles.get ⟨i, h⟩).user_id = target ∧
          profileUpdatePolicy s uid (s.profiles.get ⟨i, h⟩) = true) →
        (updateProfile s uid target fn ln ph t).profiles.get
          ⟨i, lt_length_update_profiles s uid target fn ln ph t h⟩ =
          s.profiles.get ⟨i, h⟩)) ∧
    (∀ (courseId : Nat) (nm : Str) (ds du : Option Str) (av : Bool)
        (mx : Option Int) (i : Nat) (h : i < s.courses.length),
      ((s.courses.get ⟨i, h⟩).id = courseId ∧
          courseWritePolicy s uid = true →
        ((updateCourse s uid courseId nm ds du av mx t).courses.get
          ⟨i, lt_length_update_courses s uid courseId nm ds du av mx t h⟩).updated_at
          = t) ∧
      (¬((s.courses.get ⟨i, h⟩).id = courseId ∧
          courseWritePolicy s uid = true) →
        (updateCourse s uid courseId nm ds du av mx t).courses.get
          ⟨i, lt_length_update_courses s uid courseId nm ds du av mx t h⟩ =
          s.courses.get ⟨i, h⟩)) := by
  refine ⟨?_, ?_, ?_⟩
  · intro appId st i h
    constructor
    · rintro ⟨h1, h2⟩
      simp only [List.get_eq_getElem] at h1 h2 ⊢
      have hb : (s.applications[i].id == appId &&
          applicationUpdatePolicy s uid s.applications[i]) = true := by
        simp [h1, h2]
      simp only [updateApplicationStatus_applications, List.getElem_map, hb,
        if_true]
    · intro hn
      simp only [List.get_eq_getElem] at hn ⊢
      simp only [updateApplicationStatus_applications, List.getElem_map]
      rw [if_neg]
      simp only [Bool.and_eq_true, beq_iff_eq]
      exact fun hc => hn ⟨hc.1, hc.2⟩
  · intro target fn ln ph i h
    constructor
    · rintro ⟨h1, h2⟩
      simp only [List.get_eq_getElem] at h1 h2 ⊢
      have hb : (s.profiles[i].user_id == target &&
          profileUpdatePolicy s uid s.profiles[i]) = true := by
        simp [h1, h2]
      simp only [updateProfile_profiles, List.getElem_map, hb, if_true]
    · intro hn
      simp only [List.get_eq_getElem] at hn ⊢
      simp only [updateProfile_profiles, List.getElem_map]
      rw [if_neg]
      simp only [Bool.and_eq_true, beq_iff_eq]
      exact fun hc => hn ⟨hc.1, hc.2⟩
  · intro courseId nm ds du av mx i h
    constructor
    · rintro ⟨h1, h2⟩
      simp only [List.get_eq_getElem] at h1 h2 ⊢
      have hb : (s.courses[i].id == courseId && courseWritePolicy s uid) = true := by
        simp [h1, h2]
      simp only [updateCourse_courses, List.getElem_map, hb, if_true]
    · intro hn
      simp only [List.get_eq_getElem] at hn ⊢
      simp only [updateCourse_courses, List.getElem_map]
      rw [if_neg]
      simp only [Bool.and_eq_true, beq_iff_eq]
      exact fun hc => hn ⟨hc.1, hc.2⟩

/-- C7 witness: the admin's status update on a concrete store stamps the
decided row's timestamp, and leaves the other student's row unchanged. -/
theorem C7_updated_at_refreshed_witness :
    ((updateApplicationStatus sApps (some 9) 1 .approved 5).applications.get
      ⟨0, by decide⟩).updated_at = 5 ∧
    (updateApplicationStatus sApps (some 9) 1 .approved 5).applications.get
      ⟨1, by decide⟩ = sApps.applications.get ⟨1, by decide⟩ :=
  ⟨((C7_updated_at_refreshed sApps (some 9) 5).1 1 .approved 0 (by decide)).1
     ⟨rfl, by decide⟩,
   ((C7_updated_at_refreshed sApps (some 9) 5).1 1 .approved 1 (by decide)).2
     (by decide)⟩

/-- C8: once an application row is decided ('approved' or 'rejected'), no
sequence of workspace-initiated operations (apply, cancel, approve/reject —
each issued only under its page's pending-only guard) ever returns that row's
status to 'pending'. -/
theorem C8_decided_never_pending_again (s : Store) (x : Nat) (ops : List WOp)
    (hex : ∃ a ∈ s.applications, a.id = x)
    (hdec : ∀ a ∈ s.applications, a.id = x → a.status ≠ Status.pending) :
    ∀ a ∈ (runWorkspace s ops).applications, a.id = x →
      a.status ≠ Status.pending :=
  (decidedAt_runWorkspace ops ⟨hex, hdec⟩).2

/-- C8 witness: after an admin decision on the pending row of a concrete
store, the already-approved row is still not pending. -/
theorem C8_decided_never_pending_again_witness :
    (⟨2, 2, 1, Status.approved, 0, 0⟩ : CourseApplication).status ≠
      Status.pending :=
  C8_decided_never_pending_again sApps 2 [.decideOp (some 9) 1 .rejected 3]
    ⟨⟨2, 2, 1, .approved, 0, 0⟩, by decide, rfl⟩ (by decide)
    ⟨2, 2, 1, .approved, 0, 0⟩ (by decide) rfl

/-- C9: when every course in the list has a (non-null) description, the
Catalog View filter succeeds and returns exactly the courses whose name or
description contains the search term as a case-insensitive substring. -/
theorem C9_catalog_filter (term : Str) (l : List Course)
    (h : ∀ c ∈ l, c.description.isSome) :
    ∃ res, filteredCourses term l = some res ∧
      ∀ c, c ∈ res ↔ c ∈ l ∧ SpecMatches term c := by
  refine ⟨_, filteredCourses_eq_filter term l h, ?_⟩
  intro c
  rw [List.mem_filter]
  constructor
  · rintro ⟨hc, hb⟩
    exact ⟨hc, (matchBool_iff_specMatches term c (h c hc)).mp hb⟩
  · rintro ⟨hc, hs⟩
    exact ⟨hc, (matchBool_iff_specMatches term c (h c hc)).mpr hs⟩

/-- C9 witness: the filter on a concrete one-course list. -/
theorem C9_catalog_filter_witness :
    ∃ res, filteredCourses ['a'] [cWithDesc] = some res ∧
      ∀ c, c ∈ res ↔ c ∈ [cWithDesc] ∧ SpecMatches ['a'] c :=
  C9_catalog_filter ['a'] [cWithDesc] (by decide)

/-- C10: the Catalog View filter is total (defined for every search term)
exactly on lists whose courses all have a non-null description; for any stored
course with a NULL description the error branch is reachable — a term one
character longer than the course name forces the filter to evaluate
`description.toLowerCase()` and fail. -/
theorem C10_filter_partial_on_null_description (l : List Course) :
    ((∀ c ∈ l, c.description.isSome) →
      ∀ term, (filteredCourses term l).isSome) ∧
    (∀ c ∈ l, c.description = none →
      ∃ term, filteredCourses term l = none) := by
  constructor
  · intro h term
    exact filteredCourses_isSome term l h
  · intro c hc hdesc
    exact ⟨c.name ++ ['a'],
      filteredCourses_none_of_mem_none hc hdesc (jsIncludes_name_extended c 'a')⟩

/-- C10 witness: totality on an all-described list; a forced error on a list
containing a NULL-description course. -/
theorem C10_filter_partial_on_null_description_witness :
    (filteredCourses ['z'] [cWithDesc]).isSome ∧
    (∃ term, filteredCourses term [cNoDesc] = none) :=
  ⟨(C10_filter_partial_on_null_description [cWithDesc]).1 (by decide) ['z'],
   (C10_filter_partial_on_null_description [cNoDesc]).2 cNoDesc (by decide) rfl⟩

end ShulePress
